import Mathlib

/-!
Shallow embedding of the portfolio valuation engine of portfolio.py
(function calculate_portfolio, together with the dictionary and replay
operations it performs inline), with theorems checking the stated
properties of the specification against it.

Modelling conventions:
* Python floats are modelled as rationals; the constants involved
  (500.0, 1e-6) are exact in binary or only compared, so the replay
  arithmetic of the source is mirrored exactly.
* A pandas DataFrame of trades is a List Trade in row order; the
  timestamp of a trade is Option Nat in seconds (none models a pandas
  NaT). Pandas comparisons against NaT are false, and sort_values places
  NaT last (na_position defaults to last); both are mirrored below.
  Sorting by timestamp is modelled as a stable sort.
* Timestamp.normalize() truncates to midnight of the day.
* A Python dict keyed by strings is an association list in insertion
  order; hfind, hset and hdel model lookup, insert-or-update and del.
* The price gateway is abstracted at the boundary calculate_portfolio
  itself establishes: latest is the filtered latest_prices mapping of
  line 58 (none means no usable live price for that ticker), and
  hist tk d is the as-of value historical_prices.asof(d)[tk] of lines
  117-119 (none means the ticker column is missing or the value is NaN,
  in which case the source adds nothing for that ticker).
-/

/-- One row of the trades table (columns used by calculate_portfolio:
participant, timestamp, ticker, action, shares, price). The action is
kept as a raw string exactly as the source compares it against the
literals Buy and Sell. -/
structure Trade where
  participant : String
  timestamp : Option ℕ
  ticker : String
  action : String
  shares : ℚ
  price : ℚ
deriving DecidableEq

/-- Per-ticker holding entry of the holdings dict: shares and average
purchase price. -/
structure Holding where
  shares : ℚ
  avg_price : ℚ
deriving DecidableEq

/-- The holdings dict, ticker to Holding, in insertion order. -/
abbrev Holdings := List (String × Holding)

/-- Replay accumulator: the local variables cash, holdings and
realized_pl of the per-participant loops. -/
structure PState where
  cash : ℚ
  holdings : Holdings
  realized_pl : ℚ
deriving DecidableEq

/-- One value_history entry: timestamp and total_value. -/
structure VPoint where
  timestamp : ℕ
  total_value : ℚ
deriving DecidableEq

/-- Dict lookup combined with the membership test of the source
(none means the key is absent). -/
def hfind : Holdings → String → Option Holding
  | [], _ => none
  | (k, v) :: rest, tk => if k = tk then some v else hfind rest tk

/-- Dict write: update in place if the key exists, else append
(Python dicts preserve insertion order). -/
def hset : Holdings → String → Holding → Holdings
  | [], tk, h => [(tk, h)]
  | (k, v) :: rest, tk, h =>
      if k = tk then (tk, h) :: rest else (k, v) :: hset rest tk h

/-- Dict deletion, as in del holdings[ticker]. -/
def hdel : Holdings → String → Holdings
  | [], _ => []
  | (k, v) :: rest, tk => if k = tk then rest else (k, v) :: hdel rest tk

/-- One iteration of the per-trade loop of the daily recalculation
(portfolio.py lines 87-110): unconditional Buy with weighted-average
cost blend, Sell only when the ticker is held with enough shares,
deletion of a holding when its share count falls below 1e-6. -/
def processTradeDaily (s : PState) (t : Trade) : PState :=
  let cost := t.shares * t.price
  if t.action = "Buy" then
    match hfind s.holdings t.ticker with
    | some h =>
        let old_cost := h.avg_price * h.shares
        let new_shares := h.shares + t.shares
        { cash := s.cash - cost,
          holdings := hset s.holdings t.ticker
            ⟨new_shares, (old_cost + cost) / new_shares⟩,
          realized_pl := s.realized_pl }
    | none =>
        { cash := s.cash - cost,
          holdings := hset s.holdings t.ticker ⟨t.shares, t.price⟩,
          realized_pl := s.realized_pl }
  else if t.action = "Sell" then
    match hfind s.holdings t.ticker with
    | some h =>
        if h.shares ≥ t.shares then
          let new_shares := h.shares - t.shares
          { cash := s.cash + cost,
            holdings :=
              if new_shares < 1 / 1000000 then hdel s.holdings t.ticker
              else hset s.holdings t.ticker ⟨new_shares, h.avg_price⟩,
            realized_pl := s.realized_pl + (t.price - h.avg_price) * t.shares }
        else s
    | none => s
  else s

/-- One iteration of the per-trade loop of the final current-state
recalculation (portfolio.py lines 142-163); the source repeats the loop
body of lines 87-110 verbatim, so the definition is the same text. -/
def processTradeFinal (s : PState) (t : Trade) : PState :=
  let cost := t.shares * t.price
  if t.action = "Buy" then
    match hfind s.holdings t.ticker with
    | some h =>
        let old_cost := h.avg_price * h.shares
        let new_shares := h.shares + t.shares
        { cash := s.cash - cost,
          holdings := hset s.holdings t.ticker
            ⟨new_shares, (old_cost + cost) / new_shares⟩,
          realized_pl := s.realized_pl }
    | none =>
        { cash := s.cash - cost,
          holdings := hset s.holdings t.ticker ⟨t.shares, t.price⟩,
          realized_pl := s.realized_pl }
  else if t.action = "Sell" then
    match hfind s.holdings t.ticker with
    | some h =>
        if h.shares ≥ t.shares then
          let new_shares := h.shares - t.shares
          { cash := s.cash + cost,
            holdings :=
              if new_shares < 1 / 1000000 then hdel s.holdings t.ticker
              else hset s.holdings t.ticker ⟨new_shares, h.avg_price⟩,
            realized_pl := s.realized_pl + (t.price - h.avg_price) * t.shares }
        else s
    | none => s
  else s

/-- The loop body of lines 142-163 paired with the warnings it emits.
The trade loop of the source calls no warning primitive in any branch
(st.warning occurs in calculate_portfolio only at line 54, outside the
loop), so every branch leaves the warning log unchanged. -/
def processTradeFinalW (sw : PState × List String) (t : Trade) :
    PState × List String :=
  let s := sw.1
  let cost := t.shares * t.price
  if t.action = "Buy" then
    match hfind s.holdings t.ticker with
    | some h =>
        let old_cost := h.avg_price * h.shares
        let new_shares := h.shares + t.shares
        ({ cash := s.cash - cost,
           holdings := hset s.holdings t.ticker
             ⟨new_shares, (old_cost + cost) / new_shares⟩,
           realized_pl := s.realized_pl }, sw.2)
    | none =>
        ({ cash := s.cash - cost,
           holdings := hset s.holdings t.ticker ⟨t.shares, t.price⟩,
           realized_pl := s.realized_pl }, sw.2)
  else if t.action = "Sell" then
    match hfind s.holdings t.ticker with
    | some h =>
        if h.shares ≥ t.shares then
          let new_shares := h.shares - t.shares
          ({ cash := s.cash + cost,
             holdings :=
               if new_shares < 1 / 1000000 then hdel s.holdings t.ticker
               else hset s.holdings t.ticker ⟨new_shares, h.avg_price⟩,
             realized_pl := s.realized_pl + (t.price - h.avg_price) * t.shares },
           sw.2)
        else (s, sw.2)
    | none => (s, sw.2)
  else (s, sw.2)

/-- Initial replay accumulator: cash = initial_capital (500.0), empty
holdings, zero realized profit (lines 82-84 and 138-140). -/
def initState : PState := ⟨500, [], 0⟩

/-- Seconds per calendar day; the steps of pd.date_range and the
truncation of Timestamp.normalize both use this granularity. -/
def DAY : ℕ := 86400

/-- The timestamp-below-bound filter of line 75; a pandas comparison
against NaT is false, so undated rows never pass. -/
def tsLTb : Option ℕ → ℕ → Bool
  | none, _ => false
  | some ts, bound => decide (ts < bound)

/-- Order used by the sort on timestamps: ascending, NaT placed last. -/
def tsLEb : Option ℕ → Option ℕ → Bool
  | none, none => true
  | none, some _ => false
  | some _, none => true
  | some a, some b => decide (a ≤ b)

/-- Stable insertion step for sortTrades. -/
def insertTrade (t : Trade) : List Trade → List Trade
  | [] => [t]
  | u :: us =>
      if tsLEb t.timestamp u.timestamp then t :: u :: us
      else u :: insertTrade t us

/-- Stable sort by timestamp, modelling sort_values on the timestamp
column (lines 79 and 135); rows with equal timestamps keep their ledger
order. -/
def sortTrades : List Trade → List Trade
  | [] => []
  | t :: ts => insertTrade t (sortTrades ts)

/-- Normalization of a timestamp to midnight of its day
(Timestamp.normalize, lines 44 and 46). -/
def normalizeTs (t : ℕ) : ℕ := t / DAY * DAY

/-- Minimum of the dated rows (line 44): the pandas min skips NaT and
is NaT when no dated row exists. -/
def minTs (ledger : List Trade) : Option ℕ :=
  (ledger.filterMap (fun t => t.timestamp)).foldr
    (fun a acc => match acc with
      | none => some a
      | some b => some (min a b)) none

/-- Consecutive midnights: n days starting at s. -/
def dateRangeAux (s : ℕ) : ℕ → List ℕ
  | 0 => []
  | n + 1 => s :: dateRangeAux (s + DAY) n

/-- Daily grid pd.date_range(start_date, end_date) of line 73 for
day-normalized endpoints: one midnight per day from s to e inclusive,
empty when s exceeds e. -/
def dateRange (s e : ℕ) : List ℕ :=
  if s ≤ e then dateRangeAux s ((e - s) / DAY + 1) else []

/-- First-occurrence deduplication, the order pandas unique() returns
participants in (line 61). -/
def uniqueKeepAux (seen : List String) : List String → List String
  | [] => []
  | x :: xs =>
      if seen.contains x then uniqueKeepAux seen xs
      else x :: uniqueKeepAux (x :: seen) xs

/-- The participant list of line 61. -/
def uniqueKeep (l : List String) : List String := uniqueKeepAux [] l

/-- Holdings valuation of lines 113-123 for one day: each held ticker
with an as-of historical price contributes shares times price; a ticker
whose column is missing or whose as-of value is NaN contributes
nothing. -/
def holdingsValueAt (hist : String → ℕ → Option ℚ) (d : ℕ)
    (hs : Holdings) : ℚ :=
  hs.foldl (fun acc q =>
    match hist q.1 d with
    | some pr => acc + q.2.shares * pr
    | none => acc) 0

/-- Accumulator current_holdings_value of the loop of lines 170-176:
only tickers with a live price contribute. -/
def curValue (latest : String → Option ℚ) (hs : Holdings) : ℚ :=
  hs.foldl (fun acc q =>
    match latest q.1 with
    | some pr => acc + q.2.shares * pr
    | none => acc) 0

/-- Accumulator total_unrealized_pl of the loop of lines 170-176. -/
def curUnreal (latest : String → Option ℚ) (hs : Holdings) : ℚ :=
  hs.foldl (fun acc q =>
    match latest q.1 with
    | some pr => acc + (pr - q.2.avg_price) * q.2.shares
    | none => acc) 0

/-- Accumulator current_holdings_price of the loop of lines 170-176:
an entry is written only when a live price exists. -/
def curPrices (latest : String → Option ℚ) (hs : Holdings) :
    List (String × ℚ) :=
  hs.foldl (fun acc q =>
    match latest q.1 with
    | some pr => acc ++ [(q.1, pr)]
    | none => acc) []

/-- The dict comprehension of line 183: value per held ticker with
default 0 when the live price is missing. -/
def curValueMap (latest : String → Option ℚ) (hs : Holdings) :
    List (String × ℚ) :=
  hs.map (fun q => (q.1, q.2.shares * ((latest q.1).getD 0)))

/-- Replay state as of end of day d for one participant (lines 74-110):
the ledger is filtered to timestamps below d plus one day, restricted to
the participant, sorted by timestamp, and folded through the daily loop
body from the reset state. -/
def dailyStateOn (ledger : List Trade) (p : String) (d : ℕ) : PState :=
  List.foldl processTradeDaily initState
    (sortTrades
      ((ledger.filter (fun t => tsLTb t.timestamp (d + DAY))).filter
        (fun t => t.participant == p)))

/-- The value_history built by the daily loop (lines 73-131): one point
per day of the global date range, valuing holdings with as-of historical
prices. -/
def valueHistory (ledger : List Trade) (p : String) (sd ed : ℕ)
    (hist : String → ℕ → Option ℚ) : List VPoint :=
  (dateRange sd ed).map (fun d =>
    let st := dailyStateOn ledger p d
    ⟨d, st.cash + holdingsValueAt hist d st.holdings⟩)

/-- Final current-state replay over the complete ledger for one
participant (lines 133-163). -/
def finalState (ledger : List Trade) (p : String) : PState :=
  List.foldl processTradeFinal initState
    (sortTrades (ledger.filter (fun t => t.participant == p)))

/-- The per-participant output record assembled by calculate_portfolio
(lines 63-70 and 178-185; the placeholder fields of lines 65-67 are
overwritten by the final loop; the participant name itself is the key of
the result map). -/
structure Snapshot where
  cash : ℚ
  holdings : Holdings
  total_realized_pl : ℚ
  total_unrealized_pl : ℚ
  current_holdings_value : List (String × ℚ)
  current_holdings_price : List (String × ℚ)
  total_value : ℚ
  value_history : List VPoint
  trades : List Trade
deriving DecidableEq

/-- Assembly of the snapshot of one participant given the global day
range sd..ed (lines 63-70, 73-131 and 133-185). -/
def mkSnapshot (ledger : List Trade) (latest : String → Option ℚ)
    (hist : String → ℕ → Option ℚ) (sd ed : ℕ) (p : String) : Snapshot :=
  let st := finalState ledger p
  { cash := st.cash,
    holdings := st.holdings,
    total_realized_pl := st.realized_pl,
    total_unrealized_pl := curUnreal latest st.holdings,
    current_holdings_value := curValueMap latest st.holdings,
    current_holdings_price := curPrices latest st.holdings,
    total_value := st.cash + curValue latest st.holdings,
    value_history := valueHistory ledger p sd ed hist,
    trades := ledger.filter (fun t => t.participant == p) }

/-- Top-level calculate_portfolio (portfolio.py lines 30-187) as a
function of the ledger snapshot, the two price-gateway responses and the
evaluation instant now (pd.Timestamp.now(), line 46). Returns the
participant-keyed result map as an association list in unique() order.
An empty ledger and an all-NaT minimum both yield the empty mapping
(lines 35-36 and 48-49). -/
def calculate_portfolio (ledger : List Trade)
    (latest : String → Option ℚ) (hist : String → ℕ → Option ℚ)
    (now : ℕ) : List (String × Snapshot) :=
  if ledger.isEmpty then []
  else
    match minTs ledger with
    | none => []
    | some m =>
        let sd := normalizeTs m
        let ed := normalizeTs now
        (uniqueKeep (ledger.map (fun t => t.participant))).map
          (fun p => (p, mkSnapshot ledger latest hist sd ed p))

/-- Lookup in the participant-keyed result map. -/
def lookupP : List (String × Snapshot) → String → Option Snapshot
  | [], _ => none
  | (k, v) :: rest, p => if k = p then some v else lookupP rest p

/-- Price gateway returning no usable live price for any ticker. -/
def noLatest : String → Option ℚ := fun _ => none

/-- Historical price source with no data for any ticker or day. -/
def noHist : String → ℕ → Option ℚ := fun _ _ => none

/-- Concrete ledger for claim C1: one participant buys 20 shares of one
ticker at price 4, timestamp one hour into day 0. -/
def ledger1 : List Trade := [⟨"elle", some 3600, "XYZ", "Buy", 20, 4⟩]

/-- Concrete ledger for claims C2 and C5: the single-buy scenario of the
repository test suite (10 shares at 12.00). -/
def ledger2 : List Trade := [⟨"user1", some 3600, "GME", "Buy", 10, 12⟩]

/-- Concrete two-participant ledger for claim C3: alice trades on day 0,
bob trades on day 2. -/
def ledger3a : List Trade :=
  [⟨"alice", some 0, "AAA", "Buy", 1, 1⟩,
   ⟨"bob", some 172800, "BBB", "Buy", 1, 1⟩]

/-- The ledger of C3 with the trades of alice removed. -/
def ledger3b : List Trade := [⟨"bob", some 172800, "BBB", "Buy", 1, 1⟩]

/-- Concrete ledger for claim C4: buy 5 shares, then attempt to sell 10
shares of the same ticker. -/
def ledger4 : List Trade :=
  [⟨"dave", some 3600, "DOG", "Buy", 5, 2⟩,
   ⟨"dave", some 7200, "DOG", "Sell", 10, 3⟩]

/-- The ledger of C4 with the oversized Sell removed. -/
def ledger4b : List Trade := [⟨"dave", some 3600, "DOG", "Buy", 5, 2⟩]

/-- Concrete ledger for the witnesses of C6 and C9: a buy and a valid
sell on day 0. -/
def ledger6 : List Trade :=
  [⟨"frank", some 3600, "FOX", "Buy", 10, 2⟩,
   ⟨"frank", some 7200, "FOX", "Sell", 4, 3⟩]

/-- Concrete ledger for claim C7: Buy 20 at 4.00 then Sell 5 at 6.00 of
the same ticker. -/
def ledger7 : List Trade :=
  [⟨"alice", some 3600, "AMC", "Buy", 20, 4⟩,
   ⟨"alice", some 7200, "AMC", "Sell", 5, 6⟩]

/-- Concrete ledger for claim C8: a Buy row with negative shares. -/
def ledger8 : List Trade := [⟨"carol", some 3600, "CAT", "Buy", -5, 2⟩]

/-- Buy trade whose cost exceeds the initial capital (for C10). -/
def bigBuy : Trade := ⟨"greg", some 0, "GGG", "Buy", 200, 3⟩

/-- Sell trade against an empty portfolio (for the C4 witness). -/
def loneSell : Trade := ⟨"dave", some 3600, "DOG", "Sell", 10, 3⟩

/-- Filters over a list commute. -/
lemma filter_swap (l : List Trade) (f g : Trade → Bool) :
    (l.filter f).filter g = (l.filter g).filter f := by
  induction l with
  | nil => rfl
  | cons t ts ih => cases hf : f t <;> cases hg : g t <;> simp [hf, hg, ih]

set_option maxRecDepth 8000

/-- Claim C1, counterexample: with the live price of the single held
ticker unavailable, total_value is 420 = cash alone; the contribution of
the held ticker is zero, not its cost basis of 80, contradicting the
claimed cost-basis fallback. -/
theorem missing_price_zero_contribution :
    (lookupP (calculate_portfolio ledger1 noLatest noHist 3600) "elle").map
      Snapshot.total_value = some 420 ∧
    (420 : ℚ) ≠ 420 + 20 * 4 := by
  refine ⟨?_, by norm_num⟩
  simp [calculate_portfolio, ledger1, minTs, normalizeTs, DAY, uniqueKeep,
    uniqueKeepAux, mkSnapshot, finalState, sortTrades, insertTrade, tsLEb,
    processTradeFinal, hfind, hset, hdel, curValue, curUnreal, curPrices,
    curValueMap, valueHistory, dateRange, dateRangeAux, dailyStateOn, tsLTb,
    processTradeDaily, holdingsValueAt, noLatest, noHist, lookupP, initState]
  norm_num

/-- Claim C1, amended: a held ticker whose live price lookup returns
none contributes zero (not its cost basis) to the current holdings value
accumulator feeding total_value, contributes zero to
total_unrealized_pl, and writes no entry into current_holdings_price. -/
theorem missing_price_fallback (latest : String → Option ℚ) (tk : String)
    (hd : Holding) (pre post : Holdings) (h : latest tk = none) :
    curValue latest (pre ++ (tk, hd) :: post) = curValue latest (pre ++ post) ∧
    curUnreal latest (pre ++ (tk, hd) :: post) = curUnreal latest (pre ++ post) ∧
    curPrices latest (pre ++ (tk, hd) :: post) = curPrices latest (pre ++ post) := by
  refine ⟨?_, ?_, ?_⟩ <;>
    simp [curValue, curUnreal, curPrices, List.foldl_append, h]

/-- Witness for the amended C1 at a concrete holding and an empty
price gateway. -/
theorem missing_price_fallback_witness :
    curValue noLatest ([] ++ ("ZZZ", (⟨1, 1⟩ : Holding)) :: []) =
      curValue noLatest ([] ++ []) ∧
    curUnreal noLatest ([] ++ ("ZZZ", (⟨1, 1⟩ : Holding)) :: []) =
      curUnreal noLatest ([] ++ []) ∧
    curPrices noLatest ([] ++ ("ZZZ", (⟨1, 1⟩ : Holding)) :: []) =
      curPrices noLatest ([] ++ []) :=
  missing_price_fallback noLatest "ZZZ" ⟨1, 1⟩ [] [] rfl

/-- Claim C2: evaluation at the single-buy scenario of the repository
test suite. The entire value_history is one point, at midnight of the
first trade day, with total_value 380 (after the buy, unpriced); there
is no synthetic baseline point whose total_value is the initial capital
500, although the test asserts exactly that point. -/
theorem first_history_point_not_baseline :
    (lookupP (calculate_portfolio ledger2 noLatest noHist 40000) "user1").map
      Snapshot.value_history = some [⟨0, 380⟩] ∧
    (380 : ℚ) ≠ 500 := by
  refine ⟨?_, by norm_num⟩
  simp [calculate_portfolio, ledger2, minTs, normalizeTs, DAY, uniqueKeep,
    uniqueKeepAux, mkSnapshot, finalState, sortTrades, insertTrade, tsLEb,
    processTradeFinal, hfind, hset, hdel, curValue, curUnreal, curPrices,
    curValueMap, valueHistory, dateRange, dateRangeAux, dailyStateOn, tsLTb,
    processTradeDaily, holdingsValueAt, noLatest, noHist, lookupP, initState]
  norm_num

/-- Claim C3, counterexample: the snapshot of bob changes when the
trades of alice are removed from the ledger, with identical price
gateway responses: the value_history of bob has three points in the full
ledger (the daily range starts at the global first trade, day 0) but one
point in the ledger holding only the trades of bob. -/
theorem cross_participant_history_change :
    (lookupP (calculate_portfolio ledger3a noLatest noHist 172800) "bob").map
      (fun s => s.value_history.length) = some 3 ∧
    (lookupP (calculate_portfolio ledger3b noLatest noHist 172800) "bob").map
      (fun s => s.value_history.length) = some 1 ∧
    (3 : ℕ) ≠ 1 := by
  refine ⟨?_, ?_, by norm_num⟩ <;>
    simp [calculate_portfolio, ledger3a, ledger3b, minTs, normalizeTs, DAY,
      uniqueKeep, uniqueKeepAux, lookupP, mkSnapshot, valueHistory,
      dateRange, dateRangeAux, List.length_map]

/-- Claim C3, amended: with the global day range sd..ed held fixed, the
snapshot computed for a participant depends only on the rows of that
participant: two ledgers agreeing on those rows give identical
snapshots, every field included. Through calculate_portfolio the day
range itself is derived from the global minimum timestamp, so removing
trades of another participant can still change value_history (see the
counterexample), while cash, holdings, realized and unrealized profit,
current values, prices and total_value are unaffected. -/
theorem participant_isolation (l₁ l₂ : List Trade)
    (latest : String → Option ℚ) (hist : String → ℕ → Option ℚ)
    (sd ed : ℕ) (p : String)
    (h : l₁.filter (fun t => t.participant == p) =
      l₂.filter (fun t => t.participant == p)) :
    mkSnapshot l₁ latest hist sd ed p = mkSnapshot l₂ latest hist sd ed p := by
  have hd : ∀ d, dailyStateOn l₁ p d = dailyStateOn l₂ p d := by
    intro d
    unfold dailyStateOn
    rw [filter_swap l₁, filter_swap l₂, h]
  simp [mkSnapshot, finalState, valueHistory, h, hd]

/-- Witness for the amended C3: removing the trades of alice leaves the
snapshot of bob unchanged once the day range is held fixed. -/
theorem participant_isolation_witness :
    mkSnapshot ledger3a noLatest noHist 0 172800 "bob" =
      mkSnapshot ledger3b noLatest noHist 0 172800 "bob" :=
  participant_isolation ledger3a ledger3b noLatest noHist 0 172800 "bob"
    (by simp [ledger3a, ledger3b])

/-- Claim C4, counterexample: replaying the ledger with an oversized
Sell emits no warning at all (the warning log stays empty), even though
the Sell is skipped: the final state equals the state for the ledger
with that trade absent. The claimed warning flag does not exist in the
replay. -/
theorem invalid_sell_no_warning :
    (List.foldl processTradeFinalW (initState, [])
      (sortTrades (ledger4.filter (fun t => t.participant == "dave")))).2 = [] ∧
    List.foldl processTradeFinal initState
        (sortTrades (ledger4.filter (fun t => t.participant == "dave"))) =
      List.foldl processTradeFinal initState
        (sortTrades (ledger4b.filter (fun t => t.participant == "dave"))) := by
  constructor <;>
    simp [ledger4, ledger4b, sortTrades, insertTrade, tsLEb,
      processTradeFinal, processTradeFinalW, hfind, hset, hdel, initState] <;>
      norm_num

/-- Claim C4, amended: a Sell whose ticker is not held, or whose
requested shares exceed the held shares, is skipped silently: the replay
of the chronological sequence with the trade present equals the replay
with it absent, the skip mutates neither cash nor holdings nor realized
profit, no warning is emitted, and subsequent trades are still
processed (the replay is not aborted). -/
theorem invalid_sell_skipped (init : PState) (w : List String)
    (pre post : List Trade) (t : Trade) (hact : t.action = "Sell")
    (hinv : ∀ h, hfind (List.foldl processTradeFinal init pre).holdings
      t.ticker = some h → h.shares < t.shares) :
    List.foldl processTradeFinal init (pre ++ t :: post) =
      List.foldl processTradeFinal init (pre ++ post) ∧
    processTradeFinalW (List.foldl processTradeFinal init pre, w) t =
      (List.foldl processTradeFinal init pre, w) := by
  have hskip : processTradeFinal (List.foldl processTradeFinal init pre) t =
      List.foldl processTradeFinal init pre := by
    rcases hh : hfind (List.foldl processTradeFinal init pre).holdings
        t.ticker with _ | hv
    · simp [processTradeFinal, hact, hh]
    · simp [processTradeFinal, hact, hh,
        show ¬ (hv.shares ≥ t.shares) from not_le.mpr (hinv hv hh)]
  constructor
  · rw [List.foldl_append, List.foldl_cons, hskip, ← List.foldl_append]
  · rcases hh : hfind (List.foldl processTradeFinal init pre).holdings
        t.ticker with _ | hv
    · simp [processTradeFinalW, hact, hh]
    · simp [processTradeFinalW, hact, hh,
        show ¬ (hv.shares ≥ t.shares) from not_le.mpr (hinv hv hh)]

/-- Witness for the amended C4: a Sell against an empty portfolio is
dropped without touching the state or the warning log. -/
theorem invalid_sell_skipped_witness :
    (List.foldl processTradeFinal initState ([] ++ loneSell :: []) =
      List.foldl processTradeFinal initState ([] ++ []) ∧
    processTradeFinalW (List.foldl processTradeFinal initState [], []) loneSell =
      (List.foldl processTradeFinal initState [], [])) :=
  invalid_sell_skipped initState [] [] [] loneSell rfl
    (fun _ hh => Option.noConfusion hh)

/-- Claim C5: evaluation at the single-buy scenario. The value_history
spans one day (the trade day is the evaluation day), so the claimed
lower bound of one baseline point plus one point for the day spanned,
two in total, fails: the history holds exactly one point. The timestamps
are produced in ascending day order, so the monotonicity half of the
claim holds; the length bound is what fails. -/
theorem history_length_no_baseline :
    (lookupP (calculate_portfolio ledger2 noLatest noHist 40000) "user1").map
      (fun s => s.value_history.length) = some 1 ∧
    ¬ (1 ≥ 1 + 1) := by
  refine ⟨?_, by norm_num⟩
  simp [calculate_portfolio, ledger2, minTs, normalizeTs, DAY, uniqueKeep,
    uniqueKeepAux, mkSnapshot, finalState, sortTrades, insertTrade, tsLEb,
    processTradeFinal, hfind, hset, hdel, curValue, curUnreal, curPrices,
    curValueMap, valueHistory, dateRange, dateRangeAux, dailyStateOn, tsLTb,
    processTradeDaily, holdingsValueAt, noLatest, noHist, lookupP, initState]

/-- Claim C6: when every ledger row has a timestamp strictly below the
day after the evaluation day, the state computed by the daily-history
replay on its final day (which filters to timestamps below today plus
one day) equals the state of the separate current-state replay over the
complete ledger: the two replay loops agree on cash, holdings and
realized profit. -/
theorem daily_final_agree (ledger : List Trade) (now : ℕ) (p : String)
    (h : ∀ t ∈ ledger, tsLTb t.timestamp (normalizeTs now + DAY) = true) :
    dailyStateOn ledger p (normalizeTs now) = finalState ledger p := by
  have hpt : processTradeDaily = processTradeFinal := rfl
  unfold dailyStateOn finalState
  rw [List.filter_eq_self.mpr h, hpt]

/-- Witness for C6 at a concrete two-trade ledger dated on the
evaluation day. -/
theorem daily_final_agree_witness :
    dailyStateOn ledger6 "frank" (normalizeTs 40000) =
      finalState ledger6 "frank" :=
  daily_final_agree ledger6 40000 "frank" (by decide)

/-- Claim C7: for a Buy of 20 at 4.00 followed by a Sell of 5 at 6.00 of
the same ticker, the replay yields cash 450, the remaining holding of 15
shares at average price 4.00 (unchanged by the Sell), and realized
profit 10. -/
theorem buy_then_sell_example :
    finalState ledger7 "alice" = ⟨450, [("AMC", ⟨15, 4⟩)], 10⟩ := by
  simp [ledger7, finalState, sortTrades, insertTrade, tsLEb,
    processTradeFinal, hfind, hset, hdel, initState] <;> norm_num

/-- Claim C8, counterexample: a Buy row with negative shares is not
skipped by the replay: it credits cash (510 instead of the untouched
500) and records a negative holding. -/
theorem nonpositive_row_processed :
    (finalState ledger8 "carol").cash = 510 ∧
    (finalState ledger8 "carol").holdings = [("CAT", ⟨-5, 2⟩)] ∧
    (510 : ℚ) ≠ 500 := by
  refine ⟨?_, ?_, by norm_num⟩ <;>
    norm_num [ledger8, finalState, sortTrades, insertTrade, tsLEb,
      processTradeFinal, hfind, hset, hdel, initState]

/-- Claim C8, amended: the replay performs no validation of shares,
price, ticker or timestamp; the only rows leaving the state unchanged
are those whose action is neither Buy nor Sell, and those are dropped
silently. Rows with non-positive shares or price are processed like any
other trade (see the counterexample). -/
theorem unknown_action_skipped (s : PState) (t : Trade)
    (h1 : t.action ≠ "Buy") (h2 : t.action ≠ "Sell") :
    processTradeFinal s t = s ∧ processTradeDaily s t = s := by
  constructor <;> simp [processTradeFinal, processTradeDaily, h1, h2]

/-- Witness for the amended C8 at a concrete row with an unknown
action. -/
theorem unknown_action_skipped_witness :
    processTradeFinal initState ⟨"x", some 0, "TTT", "Hold", 1, 1⟩ = initState ∧
    processTradeDaily initState ⟨"x", some 0, "TTT", "Hold", 1, 1⟩ = initState :=
  unknown_action_skipped initState ⟨"x", some 0, "TTT", "Hold", 1, 1⟩
    (by decide) (by decide)

/-- Claim C9: the engine is deterministic: two invocations on equal
ledger snapshots, pointwise-equal price-gateway responses and the same
evaluation instant return equal result maps. The embedding is a pure
function of exactly these inputs, mirroring that the source reads no
other mutable state during one computation. -/
theorem engine_deterministic (l₁ l₂ : List Trade)
    (latest₁ latest₂ : String → Option ℚ)
    (hist₁ hist₂ : String → ℕ → Option ℚ) (n₁ n₂ : ℕ)
    (hl : l₁ = l₂) (hlat : ∀ tk, latest₁ tk = latest₂ tk)
    (hh : ∀ tk d, hist₁ tk d = hist₂ tk d) (hn : n₁ = n₂) :
    calculate_portfolio l₁ latest₁ hist₁ n₁ =
      calculate_portfolio l₂ latest₂ hist₂ n₂ := by
  subst hl
  subst hn
  obtain rfl : latest₁ = latest₂ := funext hlat
  obtain rfl : hist₁ = hist₂ := funext fun tk => funext (hh tk)
  rfl

/-- Witness for C9 at a concrete ledger and empty price gateways. -/
theorem engine_deterministic_witness :
    calculate_portfolio ledger6 noLatest noHist 40000 =
      calculate_portfolio ledger6 noLatest noHist 40000 :=
  engine_deterministic ledger6 ledger6 noLatest noLatest noHist noHist
    40000 40000 rfl (fun _ => rfl) (fun _ _ => rfl) rfl

/-- Claim C10: a Buy is applied unconditionally in both replay loops:
cash is debited by shares times price with no funds check, so no Buy is
ever rejected and cash may become negative. -/
theorem buy_unconditional (s : PState) (t : Trade) (h : t.action = "Buy") :
    (processTradeFinal s t).cash = s.cash - t.shares * t.price ∧
    (processTradeDaily s t).cash = s.cash - t.shares * t.price := by
  constructor <;>
    · rcases hh : hfind s.holdings t.ticker with _ | hv <;>
        simp [processTradeFinal, processTradeDaily, h, hh]

/-- Witness for C10: a Buy of 200 shares at 3 from the initial capital
of 500 is applied and drives cash negative. -/
theorem buy_unconditional_witness :
    ((processTradeFinal initState bigBuy).cash =
        initState.cash - bigBuy.shares * bigBuy.price ∧
      (processTradeDaily initState bigBuy).cash =
        initState.cash - bigBuy.shares * bigBuy.price) ∧
    initState.cash - bigBuy.shares * bigBuy.price < 0 :=
  ⟨buy_unconditional initState bigBuy rfl, by norm_num [initState, bigBuy]⟩
